import Mathlib

/-!
Verification of the clipperin video-clipping engine.

This file gives a shallow embedding, in Lean 4, of the content-analysis and
render-decision code of the repository:

* `src/api/tasks.py` — `analyze_transcript_for_clips`, `smart_chapter_detection`,
  `generate_fallback_chapters`, `extract_keywords_simple`, `parse_chapter_response`,
  `get_crop_filter`, the face-aware layout sampling of
  `generate_clip_with_subtitles`, and the smoothing update of `smart_reframe_video`;
* `src/api/main.py` — `select_chapters` and the restart recovery of
  `load_jobs_from_disk`;
* `src/packages/clipperin-core/clipperin_core/processors/analyzer.py` —
  `ContentAnalyzer` (`analyze_chapters`, `_ai_analyze`, `_rule_based_analyze`,
  `_generate_title`, `_extract_hooks`, `score_viral_potential`).

Python floats are modelled as `ℚ`, Python ints as `ℤ`/`ℕ`, Python `int(x)`
truncation as `pytrunc`, and Python strings as Lean `String`s manipulated
through their character lists (so that everything evaluates by `decide`).
External collaborators (the face detector, the text-completion providers, the
task queue) are passed in as explicit parameters, matching the narrow
contracts they have in the code.
-/

/-- Models Python `int(x)` applied to a float: truncation toward zero. -/
def pytrunc (q : ℚ) : ℤ :=
  if q < 0 then ⌈q⌉ else ⌊q⌋

/-- A non-empty all-digit character list read as a natural number. -/
def pyDigits : List Char → Option ℕ
  | [] => none
  | ds =>
    if ds.all (fun c => c.isDigit) then
      some (ds.foldl (fun acc c => acc * 10 + (c.toNat - 48)) 0)
    else none

/-- Models Python `int(s)` on a plain decimal string: optional sign followed by
one or more ASCII digits.  Returns `none` where Python raises `ValueError`. -/
def pyIntOfChars : List Char → Option ℤ
  | [] => none
  | '-' :: ds => (pyDigits ds).map (fun n => -(n : ℤ))
  | '+' :: ds => (pyDigits ds).map (fun n => (n : ℤ))
  | ds => (pyDigits ds).map (fun n => (n : ℤ))

/-- ASCII lower-casing of one character, as Python `str.lower()` does for the
ASCII range used by this code base. -/
def asciiLower (c : Char) : Char :=
  if 65 ≤ c.toNat ∧ c.toNat ≤ 90 then Char.ofNat (c.toNat + 32) else c

/-- ASCII upper-casing of one character. -/
def asciiUpper (c : Char) : Char :=
  if 97 ≤ c.toNat ∧ c.toNat ≤ 122 then Char.ofNat (c.toNat - 32) else c

/-- Models Python `str.lower()` (ASCII range). -/
def pyLower (s : String) : String :=
  String.mk (s.toList.map asciiLower)

/-- Whitespace as recognised by Python `str.split()` / `str.strip()` for the
characters occurring in this code base. -/
def pyIsSpace (c : Char) : Bool :=
  c = ' ' ∨ c = '\t' ∨ c = '\n' ∨ c = '\r'

/-- Models Python `str.strip()`: remove leading and trailing whitespace. -/
def pyStrip (s : String) : String :=
  String.mk (((s.toList.dropWhile pyIsSpace).reverse.dropWhile pyIsSpace).reverse)

/-- Models Python `int(s)` on a string (Python strips surrounding whitespace
before converting). -/
def pyIntOfStr (s : String) : Option ℤ :=
  pyIntOfChars (pyStrip s).toList

/-- Splitting a character list on whitespace runs, dropping empty pieces.
`cur` holds the current (reversed) non-whitespace run. -/
def pySplitWsCharsAux (cur : List Char) : List Char → List (List Char)
  | [] => if cur = [] then [] else [cur.reverse]
  | c :: cs =>
    if pyIsSpace c then
      if cur = [] then pySplitWsCharsAux [] cs
      else cur.reverse :: pySplitWsCharsAux [] cs
    else pySplitWsCharsAux (c :: cur) cs

/-- Splitting a character list on whitespace runs, dropping empty pieces. -/
def pySplitWsChars (l : List Char) : List (List Char) :=
  pySplitWsCharsAux [] l

/-- Models Python `str.split()` with no argument: split on whitespace runs,
with no empty pieces. -/
def pySplitWs (s : String) : List String :=
  (pySplitWsChars s.toList).map String.mk

/-- Models Python `sub in s` (substring test). -/
def pyContains (sub s : String) : Bool :=
  decide (sub.toList <:+: s.toList)

/-- Models Python `s[:n]` on a string. -/
def pySlice (s : String) (n : ℕ) : String :=
  String.mk (s.toList.take n)

/-- Models Python `sep.join(parts)`. -/
def pyJoin (sep : String) (parts : List String) : String :=
  String.intercalate sep parts

/-- Models Python `s.split(sep)` for a one-character separator. -/
def pySplitOnChar (sep : Char) (l : List Char) : List (List Char) :=
  match l with
  | [] => [[]]
  | c :: cs =>
    match pySplitOnChar sep cs with
    | [] => if c = sep then [[], []] else [[c]]
    | p :: ps => if c = sep then [] :: p :: ps else (c :: p) :: ps

/-- Models Python `s.split(":")`. -/
def pySplitColon (s : String) : List String :=
  (pySplitOnChar ':' s.toList).map String.mk

/-- ASCII apostrophe, kept out of string literals. -/
def apos : String := (Char.ofNat 39).toString

/- ==========================================================================
`src/api/main.py`, `load_jobs_from_disk` (restart recovery): for a job
directory not otherwise recovered, the status/progress are reconstructed from
which artifact files exist.  The function starts from the default
`status = "failed"`, `progress = 0` and overrides it from `clips.json` /
`chapters.json` presence.
========================================================================== -/

/-- The status/progress reconstruction of `load_jobs_from_disk` as a function
of artifact presence (`clips.json`, `chapters.json`). -/
def recover_job_status (has_clips has_chapters : Bool) : String × ℕ :=
  -- default fallback from the initial `job_state` dict
  let st : String × ℕ := ("failed", 0)
  if has_clips then ("completed", 100)
  else if has_chapters then ("chapters_ready", 60)
  else st

/- ==========================================================================
`src/api/tasks.py`, `get_crop_filter` (lines 1261-1301): face-aware layout
decision, and its callers `generate_clip_raw` (no face count) and
`generate_clip_with_subtitles` (max face count over three sample points).
Settings: `output_width = 1080`, `output_height = 1920`.
========================================================================== -/

/-- The ffmpeg filter string built for the split (stacked two-region) layout. -/
def split_filter_str (target_w half_h : ℕ) : String :=
  s!"split[top][bottom];[top]scale={target_w}:-2,pad={target_w}:{half_h}:0:(oh-ih)/2:black[top_out];[bottom]scale={target_w}:{half_h}:force_original_aspect_ratio=increase,crop={target_w}:{half_h}[bottom_out];[top_out][bottom_out]vstack"

/-- The ffmpeg filter string built for the single full-frame crop+scale layout. -/
def single_filter_str (target_w target_h : ℕ) : String :=
  s!"scale={target_w}:{target_h}:force_original_aspect_ratio=increase,crop={target_w}:{target_h}"

/-- Embeds `get_crop_filter(width, height, face_count=None, last_layout="single")`.
Returns `(filter_string, layout_used)`.  `face_count = none` models the Python
`None` default; the aspect-ratio comparison uses exact rationals in place of
Python floats. -/
def get_crop_filter (width height : ℕ) (face_count : Option ℕ := none)
    (last_layout : String := "single") : String × String :=
  let target_w : ℕ := 1080
  let target_h : ℕ := 1920
  let half_h : ℕ := target_h / 2
  let layout : String :=
    match face_count with
    | some fc =>
      if fc ≥ 2 then "split"
      else if fc = 1 then "single"
      else last_layout
    | none =>
      let input_ar : ℚ := (width : ℚ) / (height : ℚ)
      let target_ar : ℚ := (target_w : ℚ) / (target_h : ℚ)
      if input_ar > target_ar then "split" else "single"
  if layout = "split" then (split_filter_str target_w half_h, "split")
  else (single_filter_str target_w target_h, "single")

/-- The layout computation of `generate_clip_raw`: it calls
`get_crop_filter(w, h)` with no face count and the default last layout. -/
def generate_clip_raw_filter (w h : ℕ) : String × String :=
  get_crop_filter w h

/-- The sample timestamps used by `generate_clip_with_subtitles`:
25%, 50% and 75% of the clip's duration. -/
def subtitled_sample_times (start duration : ℚ) : List ℚ :=
  [start + duration * 0.25, start + duration * 0.5, start + duration * 0.75]

/-- Models Python `max` over a list of face counts (the sampled list is always
the three-element list above, so the fold below agrees with Python `max`). -/
def pyMaxNat (l : List ℕ) : ℕ :=
  l.foldr max 0

/-- The layout decision of `generate_clip_with_subtitles`: the external face
detector `detect` (`detect_face_count`, which returns 0, 1 or 2) is sampled at
25%, 50% and 75% of the clip, the maximum count is taken, and
`get_crop_filter` is called with it and the previously used layout. -/
def generate_clip_with_subtitles_layout (detect : ℚ → ℕ) (start duration : ℚ)
    (w h : ℕ) (last_layout : String) : String × String :=
  let face_counts := (subtitled_sample_times start duration).map detect
  let face_count := pyMaxNat face_counts
  get_crop_filter w h (some face_count) last_layout

/- ==========================================================================
`src/api/tasks.py`, `smart_reframe_video` (lines 267-311): the exponential
smoothing update of the running crop center.  The code does
`last_center_x = int(last_center_x * (1 - smoothing) + face_center_x * smoothing)`
on each detection sample; both centers are pixel coordinates (ints).
========================================================================== -/

/-- One smoothing update of the running crop center: the Python statement
`int(last * (1 - smoothing) + observed * smoothing)` with `int()` modelled by
`pytrunc`. -/
def smart_reframe_step (smoothing : ℚ) (observed last : ℤ) : ℤ :=
  pytrunc ((last : ℚ) * (1 - smoothing) + (observed : ℚ) * smoothing)

/-- The running center after `n` detection samples that all observe the same
face center `observed`, starting from the initial center `c0`. -/
def smart_reframe_iter (smoothing : ℚ) (observed c0 : ℤ) : ℕ → ℤ
  | 0 => c0
  | n + 1 => smart_reframe_step smoothing observed (smart_reframe_iter smoothing observed c0 n)

/- ==========================================================================
Data shapes.
========================================================================== -/

/-- A transcript segment dict (`{"start": ..., "end": ..., "text": ...}`) as
used throughout `src/api/tasks.py`. -/
structure Segment where
  start : ℚ
  end_ : ℚ
  text : String
deriving DecidableEq

/-- A chapter dict as built by `parse_chapter_response` /
`generate_fallback_chapters` in `src/api/tasks.py`.  `end_` models the
`"end"` key. -/
structure ChapterDict where
  id : String
  title : String
  start : ℚ
  end_ : ℚ
  duration : ℚ
  summary : String
  keywords : List String
  confidence : ℚ
  selected : Bool
deriving DecidableEq

/-- A short-clip candidate dict as built by `analyze_transcript_for_clips`. -/
structure ClipDict where
  start : ℚ
  duration : ℕ
  score : ℕ
  hook : String
  reasons : List String
deriving DecidableEq

/-- The `Chapter` dataclass of
`src/packages/clipperin-core/clipperin_core/models/job.py`.  `end_` models the
`end` field. -/
structure Chapter where
  id : String
  title : String
  start : ℚ
  end_ : ℚ
  duration : ℚ
  summary : Option String := none
  confidence : ℚ := 1
  hooks : List String := []
deriving DecidableEq

/- ==========================================================================
`src/api/main.py`, `select_chapters` (lines 382-439): chapter-selection
endpoint.  The in-memory job record is modelled by `JobRecord`; the contents
of `chapters.json` by an `Option (List ChapterDict)` (`none` = file missing);
the Phase-2 task launch by the `new_task_id` parameter.  The endpoint is
modelled as a function returning the (possibly updated) job record together
with either the success payload (the selected ids) or the HTTP-400 detail
string, mirroring that every `raise HTTPException` in the code happens before
any mutation of the job record or any task launch.
========================================================================== -/

/-- The fields of the in-memory `jobs_db[job_id]` record that
`select_chapters` reads or writes. -/
structure JobRecord where
  status : String
  selected_chapters : List String
  task_id : Option String
deriving DecidableEq

/-- Embeds `select_chapters(job_id, selection)` for a job that exists in `jobs_db`. -/
def select_chapters (job : JobRecord) (chapters_file : Option (List ChapterDict))
    (chapter_ids : List String) (new_task_id : String) :
    JobRecord × Except String (List String) :=
  if job.status ≠ "chapters_ready" then
    (job, .error ("Job must be in " ++ apos ++ "chapters_ready" ++ apos ++
      " state. Current: " ++ job.status))
  else
    match chapters_file with
    | none => (job, .error "No chapters available")
    | some chapters =>
      let available_ids := chapters.map (fun ch => ch.id)
      let invalid_ids := chapter_ids.filter (fun i => !available_ids.contains i)
      if invalid_ids ≠ [] then (job, .error "Invalid chapter IDs")
      else if chapter_ids = [] then (job, .error "No chapters selected")
      else
        ({ job with
            selected_chapters := chapter_ids,
            status := "processing",
            task_id := some new_task_id },
          .ok chapter_ids)

/- ==========================================================================
`clipperin_core/processors/analyzer.py`, `ContentAnalyzer.score_viral_potential`
(lines 237-288).
========================================================================== -/

/-- The viral-intent keyword list of `score_viral_potential`. -/
def viral_intent_keywords : List String :=
  ["secret", "hack", "trick", "amazing", "unbelievable",
   "shocking", "incredible", "must see", "you won" ++ apos ++ "t",
   "finally", "discover", "learn", "how to"]

/-- Embeds `ContentAnalyzer.score_viral_potential(chapter)`, line for line. -/
def score_viral_potential (chapter : Chapter) : ℤ :=
  let score : ℤ := 50
  -- Length factor (30-60s is optimal)
  let score : ℤ :=
    if 30 ≤ chapter.duration ∧ chapter.duration ≤ 60 then score + 20
    else if 60 < chapter.duration ∧ chapter.duration ≤ 90 then score + 10
    else if chapter.duration < 20 then score - 20
    else score
  -- Hooks factor
  let score : ℤ :=
    if chapter.hooks ≠ [] then score + min (chapter.hooks.length * 5) 15 else score
  -- Question in summary
  let summary_has_q : Bool :=
    match chapter.summary with
    | some s => s ≠ "" && pyContains "?" s
    | none => false
  let score : ℤ := if summary_has_q then score + 5 else score
  -- Title length (shorter is punchier)
  let score : ℤ := if (pySplitWs chapter.title).length ≤ 5 then score + 5 else score
  -- Confidence factor
  let score : ℤ := score + pytrunc (chapter.confidence * 20)
  -- Keywords that suggest viral content
  let text := pyLower (chapter.title ++ " " ++ (chapter.summary.getD ""))
  let score : ℤ :=
    score + 2 * (viral_intent_keywords.countP (fun k => pyContains k text))
  min (max score 0) 100

/- ==========================================================================
`src/api/tasks.py`, `parse_chapter_response` (lines 820-879).  The function is
modelled from the point where `json.loads` has produced the list of entries:
each entry is a JSON object whose fields are either absent or strings (string
lists for `keywords`); the surrounding `re.search`/`json.loads` step, whose
failure also yields `[]`, is outside the model.  The single `try` wrapping the
whole loop means any `ValueError` from `int()` on a malformed timestamp
discards the whole batch.
========================================================================== -/

/-- One entry of the JSON array returned by the provider, as consumed by
`parse_chapter_response`.  A `none` field models a missing key
(`item.get(..., default)`). -/
structure RawChapterEntry where
  title : Option String := none
  start_time : Option String := none
  end_time : Option String := none
  summary : Option String := none
  keywords : Option (List String) := none
deriving DecidableEq

/-- Timestamp parsing of `parse_chapter_response`: `MM:SS` and `HH:MM:SS` are
converted with Python `int()` (whose `ValueError` is the `.error` case); any
other shape yields `none`, for which the caller substitutes its default. -/
def parse_ts_secs (s : String) : Except Unit (Option ℤ) :=
  match pySplitColon s with
  | [a, b] =>
    match pyIntOfStr a, pyIntOfStr b with
    | some x, some y => .ok (some (x * 60 + y))
    | _, _ => .error ()
  | [a, b, c] =>
    match pyIntOfStr a, pyIntOfStr b, pyIntOfStr c with
    | some x, some y, some z => .ok (some (x * 3600 + y * 60 + z))
    | _, _, _ => .error ()
  | _ => .ok none

/-- The body of the `for i, item in enumerate(ai_chapters)` loop of
`parse_chapter_response`: `.error ()` models an uncaught `ValueError`,
`.ok none` a `continue` (duration under 30 seconds), `.ok (some c)` an
appended chapter. -/
def conv_chapter_entry (i : ℕ) (item : RawChapterEntry) (video_duration : ℚ) :
    Except Unit (Option ChapterDict) := do
  let start_str := item.start_time.getD "00:00"
  let end_str := item.end_time.getD "00:00"
  let start_opt ← parse_ts_secs start_str
  let start_secs : ℤ := start_opt.getD 0
  let end_opt ← parse_ts_secs end_str
  let end_secs : ℤ := end_opt.getD (start_secs + 180)  -- Default 3 minutes
  -- Validate duration
  let duration := end_secs - start_secs
  if duration < 30 then  -- Minimum 30 seconds
    pure none
  else
    -- Clamp to video duration
    let end_secs : ℚ := min (end_secs : ℚ) video_duration
    pure (some {
      id := s!"ch_{i + 1}",
      title := pySlice (item.title.getD s!"Chapter {i + 1}") 30,
      start := (start_secs : ℚ),
      end_ := end_secs,
      duration := end_secs - (start_secs : ℚ),
      summary := pySlice (item.summary.getD "") 100,
      keywords := (item.keywords.getD []).take 5,
      confidence := 0.85,
      selected := false })

/-- The entry loop of `parse_chapter_response`, accumulating chapters;
an exception aborts the whole loop. -/
def parse_chapter_go (video_duration : ℚ) :
    List (ℕ × RawChapterEntry) → List ChapterDict → Except Unit (List ChapterDict)
  | [], acc => .ok acc
  | (i, item) :: rest, acc =>
    match conv_chapter_entry i item video_duration with
    | .error _ => .error ()
    | .ok none => parse_chapter_go video_duration rest acc
    | .ok (some c) => parse_chapter_go video_duration rest (acc ++ [c])

/-- Embeds `parse_chapter_response(response_text, video_duration)` from the parsed
entry list on: the outer `except` turns any uncaught entry exception into an
empty result. -/
def parse_chapter_response (entries : List RawChapterEntry) (video_duration : ℚ) :
    List ChapterDict :=
  match parse_chapter_go video_duration entries.enum [] with
  | .ok chapters => chapters
  | .error _ => []

/- ==========================================================================
`src/api/tasks.py`, `analyze_transcript_for_clips` (lines 477-577): rule-based
short-clip detection.
========================================================================== -/

/-- The weighted keyword lexicon of `analyze_transcript_for_clips`, in dict
insertion order. -/
def viral_keywords : List (String × ℕ) :=
  [ -- Questions (hook attention)
   ("apa", 2), ("kenapa", 2), ("bagaimana", 2), ("gimana", 2), ("mengapa", 2),
   ("siapa", 2), ("kapan", 2), ("dimana", 2), ("berapa", 2),
   -- Strong emotions
   ("gila", 3), ("wow", 3), ("luar biasa", 3), ("amazing", 3), ("incredible", 3),
   ("keren", 2), ("hebat", 2), ("mantap", 2), ("dahsyat", 2),
   -- Secrets/insights
   ("rahasia", 4), ("secret", 4), ("tips", 3), ("trik", 3), ("hack", 3),
   ("cara", 2), ("strategi", 2), ("jangan", 2),
   -- Controversy/contrast
   ("tapi", 2), ("padahal", 2), ("sebenarnya", 3), ("ternyata", 3),
   ("salah", 2), ("benar", 2), ("bohong", 3),
   -- Numbers/lists
   ("pertama", 2), ("kedua", 2), ("ketiga", 2), ("terakhir", 2),
   ("nomor satu", 3), ("paling", 2),
   -- Call to action
   ("harus", 2), ("wajib", 2), ("penting", 3), ("kunci", 2)]

/-- A scored segment dict as built in the first loop of
`analyze_transcript_for_clips`. -/
structure ScoredSeg where
  index : ℕ
  start : ℚ
  end_ : ℚ
  text : String
  score : ℕ
  reasons : List String
deriving DecidableEq

/-- The per-segment scoring of `analyze_transcript_for_clips` (`i` is the
segment's position in the list). -/
def score_transcript_segment (i : ℕ) (seg : Segment) : ScoredSeg :=
  let text := pyLower seg.text
  -- Keyword scoring
  let p : ℕ × List String :=
    viral_keywords.foldl
      (fun p kw =>
        if pyContains kw.1 text then (p.1 + kw.2, p.2 ++ ["keyword:" ++ kw.1]) else p)
      (0, [])
  -- Question mark bonus
  let p := if pyContains "?" seg.text then (p.1 + 2, p.2 ++ ["question"]) else p
  -- Exclamation bonus
  let p := if pyContains "!" seg.text then (p.1 + 1, p.2 ++ ["exclamation"]) else p
  -- Short, punchy statements (hook potential)
  let word_count := (pySplitWs text).length
  let p := if 3 ≤ word_count ∧ word_count ≤ 10 then (p.1 + 1, p.2 ++ ["short_punchy"]) else p
  -- Beginning of video bonus (good hooks)
  let p := if i < 5 then (p.1 + 1, p.2 ++ ["intro"]) else p
  { index := i, start := seg.start, end_ := seg.end_, text := pyStrip seg.text,
    score := p.1, reasons := p.2 }

/-- The clip dict appended for a selected scored segment. -/
def mk_clip_cand (target_duration : ℕ) (seg : ScoredSeg) : ClipDict :=
  { start := max 0 (seg.start - 2),   -- Start 2 seconds before hook
    duration := target_duration,
    score := seg.score,
    hook := pySlice seg.text 50,
    reasons := seg.reasons.take 3 }

/-- The greedy selection loop of `analyze_transcript_for_clips`: walk the
sorted segments, cap at `room` clips (9 in the code), and skip segments whose
30-second time bucket was already used. -/
def select_clip_cands (target_duration : ℕ) :
    List ScoredSeg → List ℤ → ℕ → List ClipDict
  | [], _, _ => []
  | seg :: rest, used_times, room =>
    if room = 0 then []
    else
      let start_time : ℚ := max 0 (seg.start - 2)
      let time_key : ℤ := pytrunc (start_time / 30)  -- 30-second windows
      if time_key ∈ used_times then
        select_clip_cands target_duration rest used_times room
      else
        mk_clip_cand target_duration seg ::
          select_clip_cands target_duration rest (time_key :: used_times) (room - 1)

/-- Embeds `analyze_transcript_for_clips(segments, target_duration=30)`.  Python's
stable descending `list.sort(key=score, reverse=True)` is modelled by the
stable `List.mergeSort`. -/
def analyze_transcript_for_clips (segments : List Segment)
    (target_duration : ℕ := 30) : List ClipDict :=
  if segments = [] then []
  else
    let scored_segments := segments.enum.map (fun p => score_transcript_segment p.1 p.2)
    let sorted_segments := scored_segments.mergeSort (fun a b => decide (b.score ≤ a.score))
    select_clip_cands target_duration sorted_segments [] 9

/- ==========================================================================
`src/api/tasks.py`, `extract_keywords_simple` (lines 920-944) and
`generate_fallback_chapters` (lines 882-917) and
`smart_chapter_detection` (lines 947-970).
========================================================================== -/

/-- The stopword set of `extract_keywords_simple`. -/
def keyword_stopwords : List String :=
  ["yang", "dan", "di", "ini", "itu", "dengan", "untuk", "adalah", "pada",
   "dari", "ke", "ada", "juga", "tidak", "akan", "bisa", "kita", "saya",
   "the", "a", "an", "is", "are", "was", "were", "be", "been", "being",
   "have", "has", "had", "do", "does", "did", "will", "would", "could",
   "should", "may", "might", "must", "shall", "can", "to", "of", "in",
   "for", "on", "with", "at", "by", "from", "as", "into", "through",
   "during", "before", "after", "above", "below", "between", "under"]

/-- ASCII letter test (`[a-zA-Z]`). -/
def isAsciiAlpha (c : Char) : Bool :=
  (65 ≤ c.toNat ∧ c.toNat ≤ 90) ∨ (97 ≤ c.toNat ∧ c.toNat ≤ 122)

/-- Regex word character (`\w`): ASCII letter, digit or underscore (the text
has been lower-cased already, so no non-ASCII word characters arise here). -/
def isWordChar (c : Char) : Bool :=
  isAsciiAlpha c ∨ c.isDigit ∨ c = '_'

/-- Whether the character before a candidate word run allows a `\b` boundary. -/
def kwBoundaryOk (pre : Option Char) : Bool :=
  match pre with
  | none => true
  | some p => !isWordChar p

/-- Scanner for `re.findall(r'\b[a-zA-Z]{4,}\b', text)`: maximal ASCII-letter
runs of length at least 4 whose neighbours (if any) are not word characters.
`pre` is the character just before the current run `run` (reversed). -/
def kwFindAux (pre : Option Char) (run : List Char) : List Char → List (List Char)
  | [] => if run.length ≥ 4 ∧ kwBoundaryOk pre then [run.reverse] else []
  | c :: cs =>
    if isAsciiAlpha c then kwFindAux pre (c :: run) cs
    else
      if run.length ≥ 4 ∧ kwBoundaryOk pre ∧ !isWordChar c then
        run.reverse :: kwFindAux (some c) [] cs
      else kwFindAux (some c) [] cs

/-- Ordered word-frequency counting: the Python dict keeps first-occurrence
order of its keys. -/
def addWordCount : List (String × ℕ) → String → List (String × ℕ)
  | [], w => [(w, 1)]
  | (x, n) :: rest, w =>
    if x = w then (x, n + 1) :: rest else (x, n) :: addWordCount rest w

/-- Embeds `extract_keywords_simple(text)`: tokenise the lower-cased text, count
non-stopword frequencies, sort by frequency (stable descending, as Python's
`sorted(..., reverse=True)`), and return the top 10 words. -/
def extract_keywords_simple (text : String) : List String :=
  let words := (kwFindAux none [] (pyLower text).toList).map String.mk
  let word_counts :=
    words.foldl (fun acc w => if keyword_stopwords.contains w then acc else addWordCount acc w) []
  let sorted_words := word_counts.mergeSort (fun a b => decide (b.2 ≤ a.2))
  (sorted_words.take 10).map (fun p => p.1)

/-- Embeds `generate_fallback_chapters(segments, video_duration)`: rule-based
fallback dividing the video into 180-second chapters. -/
def generate_fallback_chapters (segments : List Segment) (video_duration : ℚ) :
    List ChapterDict :=
  let chapter_duration : ℚ := 180  -- 3 minutes
  let num_chapters : ℕ := max 1 (pytrunc (video_duration / chapter_duration)).toNat
  (List.range num_chapters).map (fun (i : ℕ) =>
    let start : ℚ := (i : ℚ) * chapter_duration
    let end_ : ℚ := min (((i : ℚ) + 1) * chapter_duration) video_duration
    -- Find segments in this range
    let chapter_segments := segments.filter (fun seg =>
      decide (seg.start ≥ start) && decide (seg.start < end_))
    -- Extract simple keywords from segments
    let all_text := pyJoin " " (chapter_segments.map (fun seg => seg.text))
    let keywords := extract_keywords_simple all_text
    -- Generate simple title from first segment
    let first_text :=
      match chapter_segments with
      | [] => s!"Part {i + 1}"
      | seg :: _ => pySlice seg.text 30
    { id := s!"ch_{i + 1}",
      title := s!"Part {i + 1}: " ++ pySlice first_text 15 ++ "...",
      start := start,
      end_ := end_,
      duration := end_ - start,
      summary := s!"Video segment {i + 1} of {num_chapters}",
      keywords := keywords.take 5,
      confidence := 0.5,
      selected := false })

/-- Embeds `smart_chapter_detection(segments, video_duration, use_ai=True)`.
`ai_available` models `bool(settings.gemini_api_key or settings.openai_api_key)`;
`ai_outcome` models the call `analyze_chapters_with_ai(segments, video_duration)`
(`.error` = the call raised, caught by the surrounding `except`;
`.ok` = the list it returned).  Returns `(chapters, method_used)`. -/
def smart_chapter_detection (segments : List Segment) (video_duration : ℚ)
    (use_ai : Bool) (ai_available : Bool)
    (ai_outcome : Except Unit (List ChapterDict)) : List ChapterDict × String :=
  if use_ai && ai_available then
    match ai_outcome with
    | .ok chapters =>
      if chapters ≠ [] ∧ chapters.length ≥ 1 then (chapters, "ai")
      else (generate_fallback_chapters segments video_duration, "rule-based")
    | .error _ => (generate_fallback_chapters segments video_duration, "rule-based")
  else (generate_fallback_chapters segments video_duration, "rule-based")

/- ==========================================================================
`clipperin_core/processors/analyzer.py`, `ContentAnalyzer._rule_based_analyze`
(lines 82-165) with its helpers `_generate_title` and `_extract_hooks`, and
the AI path `analyze_chapters` / `_ai_analyze` (lines 23-80).
========================================================================== -/

/-- Scanner for `re.split(r'(?<=[.!?])\s+', text)`: a whitespace run directly
preceded by `.`, `!` or `?` separates sentences.  `buf` is the current
(reversed) sentence; `in_sep` means we are inside a separator run. -/
def sentSplitAux (buf : List Char) (in_sep : Bool) : List Char → List (List Char)
  | [] => if in_sep then [[]] else [buf.reverse]
  | c :: cs =>
    if in_sep then
      if pyIsSpace c then sentSplitAux buf true cs
      else sentSplitAux [c] false cs
    else if pyIsSpace c ∧ (buf.head? = some '.' ∨ buf.head? = some '!' ∨ buf.head? = some '?') then
      buf.reverse :: sentSplitAux [] true cs
    else sentSplitAux (c :: buf) false cs

/-- Runs `re.split(r'(?<=[.!?])\s+', s)` on a string. -/
def splitSentences (s : String) : List String :=
  (sentSplitAux [] false s.toList).map String.mk

/-- Models Python `str.capitalize()`: first character upper-cased, the rest
lower-cased (ASCII range). -/
def pyCapitalize (s : String) : String :=
  match s.toList with
  | [] => ""
  | c :: cs => String.mk (asciiUpper c :: cs.map asciiLower)

/-- Embeds `ContentAnalyzer._generate_title(text)`. -/
def generate_title (text : String) : String :=
  -- Get first few meaningful words
  let words := (pySplitWs (pyStrip text)).take 6
  let title := pyJoin " " words
  -- Remove trailing punctuation (`re.sub(r'[.!?,:;]+$', '', title)`)
  let title := String.mk
    ((title.toList.reverse.dropWhile (fun c => c ∈ ['.', '!', '?', ',', ':', ';'])).reverse)
  -- Capitalize
  if title ≠ "" then pyCapitalize title else "Untitled Segment"

/-- Scanner for `re.findall(r'\?[^.]*', text)` (non-overlapping, greedy):
`cur` is the current (reversed) match started at a `?`. -/
def qMatchAux (cur : Option (List Char)) : List Char → List (List Char)
  | [] => match cur with | some r => [r.reverse] | none => []
  | c :: cs =>
    match cur with
    | some r =>
      if c = '.' then r.reverse :: qMatchAux none cs
      else qMatchAux (some (c :: r)) cs
    | none =>
      if c = '?' then qMatchAux (some ['?']) cs else qMatchAux none cs

/-- ASCII upper-case letter test (`[A-Z]`). -/
def isAsciiUpper (c : Char) : Bool :=
  65 ≤ c.toNat ∧ c.toNat ≤ 90

/-- Scanner for `re.findall(r'[A-Z][^.!?]*[!?]', text)`: a candidate starts at
an upper-case letter; it succeeds at the first following `.`/`!`/`?` when that
character is `!` or `?`, and fails (with no possible inner restart, since any
inner candidate meets the same terminator) when it is `.`. -/
def exMatchAux (cand : Option (List Char)) : List Char → List (List Char)
  | [] => []
  | c :: cs =>
    match cand with
    | some r =>
      if c = '!' ∨ c = '?' then (c :: r).reverse :: exMatchAux none cs
      else if c = '.' then exMatchAux none cs
      else exMatchAux (some (c :: r)) cs
    | none =>
      if isAsciiUpper c then exMatchAux (some [c]) cs
      else exMatchAux none cs

/-- Case-insensitive literal prefix match: returns the matched slice of the
subject (original case) and the remainder. -/
def ciLitMatch : List Char → List Char → Option (List Char × List Char)
  | [], rest => some ([], rest)
  | _ :: _, [] => none
  | p :: ps, c :: cs =>
    if asciiLower p = asciiLower c then
      (ciLitMatch ps cs).map (fun q => (c :: q.1, q.2))
    else none

/-- Try the alternatives `(full_literal, group1_length)` in regex order at the
current position; on success return group 1 (as matched, original case) and
the remainder after the full literal. -/
def tryPrefixAlts (alts : List (String × ℕ)) (l : List Char) : Option (String × List Char) :=
  match alts with
  | [] => none
  | a :: rest =>
    match ciLitMatch a.1.toList l with
    | some q => some (String.mk (q.1.take a.2), q.2)
    | none => tryPrefixAlts rest l

/-- First match of a `(...)...[^.!?]*[.!?]` pattern (case-insensitive): the
prefix literal must match and some `.`/`!`/`?` must follow.  Only the first
match is used by the code (`matches[:1]`). -/
def firstPrefMatch (alts : List (String × ℕ)) : List Char → Option String
  | [] => none
  | c :: cs =>
    match tryPrefixAlts alts (c :: cs) with
    | some (g1, after_lit) =>
      if after_lit.any (fun d => d = '.' ∨ d = '!' ∨ d = '?') then some g1
      else firstPrefMatch alts cs
    | none => firstPrefMatch alts cs

/-- Alternatives of `r'(You (won\'t|will not) believe|This is )[^.!?]*[.!?]'`
(group 1 is the whole literal). -/
def hook_alts_believe : List (String × ℕ) :=
  ["You won" ++ apos ++ "t believe", "You will not believe", "This is "].map
    (fun s => (s, s.toList.length))

/-- Alternatives of `r'(The secret|The truth) (of|about|is)[^.!?]*[.!?]'`
(group 1 is only the first alternative group). -/
def hook_alts_secret : List (String × ℕ) :=
  [("The secret of", 10), ("The secret about", 10), ("The secret is", 10),
   ("The truth of", 9), ("The truth about", 9), ("The truth is", 9)]

/-- Alternatives of `r'(Wait|Stop|Hold on)[^.!?]*[.!?]'`. -/
def hook_alts_wait : List (String × ℕ) :=
  ["Wait", "Stop", "Hold on"].map (fun s => (s, s.toList.length))

/-- Embeds `ContentAnalyzer._extract_hooks(text)`. -/
def extract_hooks (text : String) : List String :=
  let l := text.toList
  -- Look for questions
  let questions := (qMatchAux none l).map String.mk
  let hooks := questions.take 2
  -- Look for exclamatory statements
  let exclamations := (exMatchAux none l).map String.mk
  let hooks := hooks ++ exclamations.take 2
  -- Look for "You won't believe" type phrases (matches[:1] per pattern)
  let hooks := hooks ++ (firstPrefMatch hook_alts_believe l).toList
  let hooks := hooks ++ (firstPrefMatch hook_alts_secret l).toList
  let hooks := hooks ++ (firstPrefMatch hook_alts_wait l).toList
  ((hooks.take 3).map pyStrip).filter (fun h => h.toList.length > 10)

/-- The chapter summary built by `_rule_based_analyze`:
`text[:200] + "..." if len(text) > 200 else text`. -/
def rb_summary (text : String) : String :=
  if text.toList.length > 200 then pySlice text 200 ++ "..." else text

/-- The sentence loop of `_rule_based_analyze`.  `ids` is the ambient uuid4
supply (the k-th constructed chapter of this call receives `ids k`),
`tpc` the estimated time per character, `current` the accumulated sentences
(in order) and `current_start` the running start time. -/
def rbLoop (ids : ℕ → String) (k : ℕ) (tpc duration min_duration max_duration : ℚ)
    (current : List String) (current_start : ℚ) : List String → List Chapter
  | [] =>
    -- Handle remaining text
    if current ≠ [] ∧ current_start < duration then
      let remaining_text := pyJoin " " current
      let remaining_duration := duration - current_start
      if remaining_duration ≥ 15 then  -- Only add if substantial
        [{ id := ids k,
           title := generate_title remaining_text,
           start := current_start,
           end_ := duration,
           duration := remaining_duration,
           summary := some (rb_summary remaining_text),
           confidence := 0.5,
           hooks := extract_hooks remaining_text }]
      else []
    else []
  | sentence :: rest =>
    if pyStrip sentence = "" then
      rbLoop ids k tpc duration min_duration max_duration current current_start rest
    else
      let current' := current ++ [sentence]
      let current_text := pyJoin " " current'
      let estimated_duration := (current_text.toList.length : ℚ) * tpc
      if min_duration ≤ estimated_duration ∧ estimated_duration ≤ max_duration then
        { id := ids k,
          title := generate_title current_text,
          start := current_start,
          end_ := min (current_start + estimated_duration) duration,
          duration := estimated_duration,
          summary := some (rb_summary current_text),
          confidence := 0.6,
          hooks := extract_hooks current_text } ::
          rbLoop ids (k + 1) tpc duration min_duration max_duration []
            (current_start + estimated_duration) rest
      else if estimated_duration > max_duration then
        -- Force split
        { id := ids k,
          title := generate_title current_text,
          start := current_start,
          end_ := min (current_start + max_duration) duration,
          duration := max_duration,
          summary := some (rb_summary current_text),
          confidence := 0.5,
          hooks := extract_hooks current_text } ::
          rbLoop ids (k + 1) tpc duration min_duration max_duration []
            (current_start + max_duration) rest
      else
        rbLoop ids k tpc duration min_duration max_duration current' current_start rest

/-- Embeds `ContentAnalyzer._rule_based_analyze(transcription, duration,
min_duration=30, max_duration=90)`.  `ids` models the `uuid4()` draws. -/
def rule_based_analyze (ids : ℕ → String) (transcription : String) (duration : ℚ)
    (min_duration : ℚ := 30) (max_duration : ℚ := 90) : List Chapter :=
  -- Split into sentences
  let sentences := splitSentences (pyStrip transcription)
  if sentences = [] then []
  else
    -- Estimate timing (uniform distribution as fallback)
    let time_per_char : ℚ :=
      if transcription ≠ "" then duration / (transcription.toList.length : ℚ) else 0.1
    rbLoop ids 0 time_per_char duration min_duration max_duration [] 0 sentences

/-- One entry of the JSON array parsed from the provider response, as consumed
by `_ai_analyze`.  A `none` field models a missing key; a present numeric
field is modelled by the outcome of Python `float()` on it (`.error` = the
`ValueError` caught by the per-item `except`). -/
structure AIChapterItem where
  title : Option String := none
  start : Option (Except Unit ℚ) := none
  end_ : Option (Except Unit ℚ) := none
  summary : Option String := none
  confidence : Option (Except Unit ℚ) := none
  hooks : Option (List String) := none

/-- Modelled from the spec: the `AIClient` base class
(`clipperin_core/ai/base.py`, with its `validate_response` and
`parse_json_response`) is not under `src/`; per the spec the provider returns
free-form text which either fails validation, fails JSON-array extraction, or
yields a list of chapter entries.  The concrete client under `src/`
(`GroqClient.generate`) catches every provider exception and returns an empty
response, so the client call itself is total. -/
structure AIResponseModel where
  validate_ok : Bool
  parsed : Option (List AIChapterItem)

/-- The body of the `for item in parsed` loop of `_ai_analyze`: `none` models
the `except (ValueError, KeyError): continue` branch. -/
def ai_item_to_chapter (ids : ℕ → String) (i : ℕ) (item : AIChapterItem) : Option Chapter :=
  match item.start.getD (.ok 0), item.end_.getD (.ok 0), item.confidence.getD (.ok 0.8) with
  | .ok s, .ok e, .ok conf =>
    some { id := ids i,
           title := item.title.getD "Untitled Chapter",
           start := s,
           end_ := e,
           duration := e - s,
           summary := item.summary,
           confidence := conf,
           hooks := item.hooks.getD [] }
  | _, _, _ => none

/-- Embeds `ContentAnalyzer._ai_analyze(transcription, duration)`, with the provider
response modelled by `resp`. -/
def ai_analyze (ids : ℕ → String) (resp : AIResponseModel)
    (transcription : String) (duration : ℚ) : List Chapter :=
  if !resp.validate_ok then rule_based_analyze ids transcription duration
  else
    match resp.parsed with
    | none => rule_based_analyze ids transcription duration
    | some parsed =>
      if parsed.isEmpty then rule_based_analyze ids transcription duration
      else
        let chapters := parsed.enum.filterMap (fun p => ai_item_to_chapter ids p.1 p.2)
        if chapters.isEmpty then rule_based_analyze ids transcription duration
        else chapters

/-- Embeds `ContentAnalyzer.analyze_chapters(transcription, duration, use_ai, ...)`.
`configured` models `self.ai_client and self.ai_client.is_configured()`. -/
def analyze_chapters (ids : ℕ → String) (use_ai configured : Bool)
    (resp : AIResponseModel) (transcription : String) (duration : ℚ) : List Chapter :=
  if use_ai && configured then ai_analyze ids resp transcription duration
  else rule_based_analyze ids transcription duration

/-- Decidable equality for `Except` results (used to evaluate concrete runs). -/
instance exceptDecEq {α β : Type} [DecidableEq α] [DecidableEq β] :
    DecidableEq (Except α β) := by
  intro a b
  cases a <;> cases b
  case error.error x y =>
    exact if h : x = y then .isTrue (by rw [h]) else .isFalse (by simp [h])
  case error.ok x y => exact .isFalse (by simp)
  case ok.error x y => exact .isFalse (by simp)
  case ok.ok x y =>
    exact if h : x = y then .isTrue (by rw [h]) else .isFalse (by simp [h])

/-- The 30-second dedup bucket of a clip candidate, recomputed from its stored
start time (`time_key = int(start_time / 30)` in the code, where the stored
`"start"` is exactly `start_time`). -/
def clip_time_key (c : ClipDict) : ℤ :=
  pytrunc (c.start / 30)

/- ==========================================================================
Theorems.
========================================================================== -/

/-- C9: on restart, for a job directory whose state was not otherwise
recovered, `load_jobs_from_disk` reconstructs the status purely from artifact
presence: `clips.json` present ⇒ (`completed`, 100); else `chapters.json`
present ⇒ (`chapters_ready`, 60); else the default (`failed`, 0). -/
theorem c9_restart_recovery :
    (∀ b : Bool, recover_job_status true b = ("completed", 100)) ∧
    recover_job_status false true = ("chapters_ready", 60) ∧
    recover_job_status false false = ("failed", 0) := by
  refine ⟨fun b => ?_, rfl, rfl⟩
  cases b <;> rfl

/-- C10: with no face count supplied, `get_crop_filter` decides the layout
purely from aspect ratios — split iff `width/height` exceeds the target
aspect ratio `1080/1920`, single otherwise — whatever the `last_layout`
argument is; and `generate_clip_raw` probes the dimensions and calls
`get_crop_filter` with no face count, so raw clips get exactly this rule. -/
theorem c10_no_face_count_aspect_rule (w h : ℕ) (last_layout : String)
    (_hh : 0 < h) :
    ((get_crop_filter w h none last_layout).2 = "split" ↔
      (w : ℚ) / (h : ℚ) > 1080 / 1920) ∧
    ((get_crop_filter w h none last_layout).2 = "single" ↔
      ¬ ((w : ℚ) / (h : ℚ) > 1080 / 1920)) ∧
    generate_clip_raw_filter w h = get_crop_filter w h none "single" := by
  by_cases har : (w : ℚ) / (h : ℚ) > 1080 / 1920 <;>
    refine ⟨?_, ?_, rfl⟩ <;>
    simp [get_crop_filter, har]

/-- Witness for C10 at a 1920×1080 (16:9) input: the aspect ratio exceeds
9:16, so the raw-clip path selects the split layout. -/
theorem c10_no_face_count_aspect_rule_witness :
    (get_crop_filter 1920 1080 none "single").2 = "split" ∧
    (0:ℕ) < 1080 := by
  refine ⟨?_, by decide⟩
  rw [(c10_no_face_count_aspect_rule 1920 1080 "single" (by decide)).1]
  norm_num

/-- C2: for a subtitled clip, the face detector is sampled at 25%, 50% and 75%
of the clip's duration and the layout is decided from the maximum count:
≥ 2 ⇒ split, = 1 ⇒ single, = 0 ⇒ the previously used layout is retained
(provided the previous layout is one of the two layouts the code produces). -/
theorem c2_face_count_layout (detect : ℚ → ℕ) (start duration : ℚ) (w h : ℕ)
    (last_layout : String)
    (hlast : last_layout = "single" ∨ last_layout = "split") :
    (generate_clip_with_subtitles_layout detect start duration w h last_layout).2 =
      (let m := pyMaxNat ((subtitled_sample_times start duration).map detect)
       if m ≥ 2 then "split" else if m = 1 then "single" else last_layout) := by
  by_cases h2 : pyMaxNat ((subtitled_sample_times start duration).map detect) ≥ 2
  · simp [generate_clip_with_subtitles_layout, get_crop_filter, h2]
  · by_cases h1 : pyMaxNat ((subtitled_sample_times start duration).map detect) = 1
    · simp [generate_clip_with_subtitles_layout, get_crop_filter, h2, h1]
    · rcases hlast with hl | hl <;> subst hl <;>
        simp [generate_clip_with_subtitles_layout, get_crop_filter, h2, h1]

/-- Witness for C2: with a detector reporting two faces at every sample the
split layout is selected. -/
theorem c2_face_count_layout_witness :
    (generate_clip_with_subtitles_layout (fun _ => 2) 0 40 1920 1080 "single").2 =
      "split" := by
  rw [c2_face_count_layout (fun _ => 2) 0 40 1920 1080 "single" (Or.inl rfl)]
  rfl

/-- Bounds for the Python truncation: it never goes below the floor nor above
the ceiling. -/
theorem pytrunc_bounds (x : ℚ) : ⌊x⌋ ≤ pytrunc x ∧ pytrunc x ≤ ⌈x⌉ := by
  unfold pytrunc
  split
  · exact ⟨Int.floor_le_ceil x, le_refl _⟩
  · exact ⟨le_refl _, Int.floor_le_ceil x⟩

/-- One smoothing step never leaves the closed interval between the current
center and the observed center. -/
theorem smart_reframe_step_bounds (a : ℚ) (h0 : 0 < a) (h1 : a < 1)
    (observed last : ℤ) :
    (last ≤ observed →
      last ≤ smart_reframe_step a observed last ∧
      smart_reframe_step a observed last ≤ observed) ∧
    (observed ≤ last →
      smart_reframe_step a observed last ≤ last ∧
      observed ≤ smart_reframe_step a observed last) := by
  set x : ℚ := (last : ℚ) * (1 - a) + (observed : ℚ) * a with hx
  have hb := pytrunc_bounds x
  constructor
  · intro hle
    have hle' : (last : ℚ) ≤ (observed : ℚ) := by exact_mod_cast hle
    have hxl : (last : ℚ) ≤ x := by nlinarith
    have hxu : x ≤ (observed : ℚ) := by nlinarith
    constructor
    · have : last ≤ ⌊x⌋ := Int.le_floor.mpr hxl
      exact le_trans this hb.1
    · have : ⌈x⌉ ≤ observed := Int.ceil_le.mpr hxu
      exact le_trans hb.2 this
  · intro hle
    have hle' : (observed : ℚ) ≤ (last : ℚ) := by exact_mod_cast hle
    have hxl : (observed : ℚ) ≤ x := by nlinarith
    have hxu : x ≤ (last : ℚ) := by nlinarith
    constructor
    · have : ⌈x⌉ ≤ last := Int.ceil_le.mpr hxu
      exact le_trans hb.2 this
    · have : observed ≤ ⌊x⌋ := Int.le_floor.mpr hxl
      exact le_trans this hb.1

/-- C6 (amended): for any smoothing factor α ∈ (0,1) and a face center
constantly observed at `observed`, the integer-truncated running center of
`smart_reframe_video` moves weakly monotonically toward `observed` and never
overshoots past it (it always stays between the initial center and the
observed center).  Because of the `int()` truncation it need not converge to
`observed` itself. -/
theorem c6_smoothing_monotone_no_overshoot (a : ℚ) (h0 : 0 < a) (h1 : a < 1)
    (observed c0 : ℤ) (n : ℕ) :
    (c0 ≤ observed →
      smart_reframe_iter a observed c0 n ≤ smart_reframe_iter a observed c0 (n + 1) ∧
      smart_reframe_iter a observed c0 n ≤ observed ∧
      c0 ≤ smart_reframe_iter a observed c0 n) ∧
    (observed ≤ c0 →
      smart_reframe_iter a observed c0 (n + 1) ≤ smart_reframe_iter a observed c0 n ∧
      observed ≤ smart_reframe_iter a observed c0 n ∧
      smart_reframe_iter a observed c0 n ≤ c0) := by
  induction n with
  | zero =>
    constructor
    · intro hle
      refine ⟨?_, hle, le_refl _⟩
      exact ((smart_reframe_step_bounds a h0 h1 observed c0).1 hle).1
    · intro hle
      refine ⟨?_, hle, le_refl _⟩
      exact ((smart_reframe_step_bounds a h0 h1 observed c0).2 hle).1
  | succ n ih =>
    constructor
    · intro hle
      obtain ⟨hmono, hub, hlb⟩ := ih.1 hle
      have hub' : smart_reframe_iter a observed c0 (n + 1) ≤ observed :=
        ((smart_reframe_step_bounds a h0 h1 observed
          (smart_reframe_iter a observed c0 n)).1 hub).2
      refine ⟨?_, hub', le_trans hlb hmono⟩
      exact ((smart_reframe_step_bounds a h0 h1 observed
        (smart_reframe_iter a observed c0 (n + 1))).1 hub').1
    · intro hle
      obtain ⟨hmono, hlb, hub⟩ := ih.2 hle
      have hlb' : observed ≤ smart_reframe_iter a observed c0 (n + 1) :=
        ((smart_reframe_step_bounds a h0 h1 observed
          (smart_reframe_iter a observed c0 n)).2 hlb).2
      refine ⟨?_, hlb', le_trans hmono hub⟩
      exact ((smart_reframe_step_bounds a h0 h1 observed
        (smart_reframe_iter a observed c0 (n + 1))).2 hlb').1

/-- Witness for the amended C6 at α = 0.15 (the configured default), initial
center 50, observed center 100, first step. -/
theorem c6_smoothing_monotone_no_overshoot_witness :
    (0 : ℚ) < 3 / 20 ∧ (3 : ℚ) / 20 < 1 ∧
    (smart_reframe_iter (3 / 20) 100 50 0 ≤ smart_reframe_iter (3 / 20) 100 50 1 ∧
     smart_reframe_iter (3 / 20) 100 50 0 ≤ 100 ∧
     50 ≤ smart_reframe_iter (3 / 20) 100 50 0) := by
  refine ⟨by norm_num, by norm_num, ?_⟩
  exact (c6_smoothing_monotone_no_overshoot (3 / 20) (by norm_num) (by norm_num)
    100 50 0).1 (by norm_num)

/-- With α = 1/2, observed center 1 and initial center 0, the truncated update
fixes the center at 0 forever. -/
theorem smart_reframe_stalls : ∀ n, smart_reframe_iter (1 / 2) 1 0 n = 0 := by
  intro n
  induction n with
  | zero => rfl
  | succ n ih =>
    show smart_reframe_step (1 / 2) 1 (smart_reframe_iter (1 / 2) 1 0 n) = 0
    rw [ih]
    norm_num [smart_reframe_step, pytrunc]

/-- Counterexample to C6 as stated: with α = 1/2 ∈ (0,1) and a constant
observed center `c = 1 ≠ 0 = c0`, the running center of the code (which
applies `int()` truncation to the blend) stays at 0 forever — in particular
after 1000000 samples — so it does not converge toward `c`. -/
theorem c6_counterexample :
    (0 : ℚ) < 1 / 2 ∧ (1 : ℚ) / 2 < 1 ∧ (1 : ℤ) ≠ 0 ∧
    smart_reframe_step (1 / 2) 1 0 = 0 ∧
    smart_reframe_iter (1 / 2) 1 0 1000000 = 0 := by
  refine ⟨by norm_num, by norm_num, by decide, ?_, smart_reframe_stalls 1000000⟩
  norm_num [smart_reframe_step, pytrunc]

/-- C4: a chapter-selection request whose id list mentions an id that is not
among the job's stored chapters, or whose id list is empty, is rejected with a
validation error and leaves the job record unchanged (no Phase-2 task is
started, no field is written); a request is accepted only when the ids are a
non-empty subset of the stored chapter ids. -/
theorem c4_selection_validation (job : JobRecord) (chapters_file : Option (List ChapterDict))
    (chapter_ids : List String) (new_task_id : String) :
    (((∃ i ∈ chapter_ids, i ∉ (chapters_file.getD []).map (fun ch => ch.id)) ∨ chapter_ids = []) →
      (∃ e, (select_chapters job chapters_file chapter_ids new_task_id).2 = .error e) ∧
      (select_chapters job chapters_file chapter_ids new_task_id).1 = job) ∧
    (∀ resp, (select_chapters job chapters_file chapter_ids new_task_id).2 = .ok resp →
      chapter_ids ≠ [] ∧ ∀ i ∈ chapter_ids, i ∈ (chapters_file.getD []).map (fun ch => ch.id)) := by
  unfold select_chapters
  by_cases hst : job.status = "chapters_ready"
  · rcases chapters_file with _ | chapters
    · simp [hst]
    · have hiff : (chapter_ids.filter
          (fun i => !(chapters.map (fun ch => ch.id)).contains i) = []) ↔
          ∀ i ∈ chapter_ids, i ∈ chapters.map (fun ch => ch.id) := by
        rw [List.filter_eq_nil_iff]
        simp
      by_cases hall : ∀ i ∈ chapter_ids, i ∈ chapters.map (fun ch => ch.id)
      · by_cases hemp : chapter_ids = []
        · simp [hst, hiff.mpr hall, hemp]
        · constructor
          · rintro (⟨i, hi, hni⟩ | h)
            · exact absurd (hall i hi) hni
            · exact absurd h hemp
          · intro resp _
            exact ⟨hemp, hall⟩
      · have hex : ∃ x ∈ chapter_ids, ∀ z ∈ chapters, ¬ z.id = x := by
          push_neg at hall
          obtain ⟨i, hi, hni⟩ := hall
          refine ⟨i, hi, ?_⟩
          intro z hz hzi
          exact hni (List.mem_map.mpr ⟨z, hz, hzi⟩)
        simp [hst, hex]
  · simp [hst]

/-- Witness for C4: a job with one stored chapter `ch_1` receives a selection
naming the unknown id `ch_2`; the record is unchanged by the rejected request. -/
theorem c4_selection_validation_witness :
    (select_chapters ⟨"chapters_ready", [], none⟩
        (some [{ id := "ch_1", title := "t", start := 0, end_ := 10, duration := 10,
                 summary := "", keywords := [], confidence := 1, selected := false }])
        ["ch_2"] "task2").1 = ⟨"chapters_ready", [], none⟩ :=
  ((c4_selection_validation ⟨"chapters_ready", [], none⟩
      (some [{ id := "ch_1", title := "t", start := 0, end_ := 10, duration := 10,
               summary := "", keywords := [], confidence := 1, selected := false }])
      ["ch_2"] "task2").1 (Or.inl ⟨"ch_2", by decide, by decide⟩)).2

/-- C1: if AI use is requested and a provider is configured, then whenever the
AI path raises (caught by the surrounding handler) or yields zero (valid)
chapters, chapter detection returns exactly the deterministic fallback applied
to the same input — `smart_chapter_detection` returns
`(generate_fallback_chapters segments video_duration, "rule-based")`, and
`ContentAnalyzer.analyze_chapters` returns
`_rule_based_analyze(transcription, duration)` — and, the embedded functions
being total, no exception escapes on this path. -/
theorem c1_ai_failure_falls_back (segments : List Segment) (video_duration : ℚ)
    (ai_outcome : Except Unit (List ChapterDict)) (ids : ℕ → String)
    (resp : AIResponseModel) (transcription : String) (duration : ℚ) :
    ((ai_outcome = .error () ∨ ai_outcome = .ok []) →
      smart_chapter_detection segments video_duration true true ai_outcome =
        (generate_fallback_chapters segments video_duration, "rule-based")) ∧
    (resp.validate_ok = false →
      analyze_chapters ids true true resp transcription duration =
        rule_based_analyze ids transcription duration) ∧
    (resp.parsed = none →
      analyze_chapters ids true true resp transcription duration =
        rule_based_analyze ids transcription duration) ∧
    (∀ items, resp.parsed = some items →
      items.enum.filterMap (fun p => ai_item_to_chapter ids p.1 p.2) = [] →
      analyze_chapters ids true true resp transcription duration =
        rule_based_analyze ids transcription duration) := by
  refine ⟨?_, ?_, ?_, ?_⟩
  · rintro (h | h) <;> subst h <;> simp [smart_chapter_detection]
  · intro hv
    simp [analyze_chapters, ai_analyze, hv]
  · intro hp
    rcases hv : resp.validate_ok <;>
      simp [analyze_chapters, ai_analyze, hv, hp]
  · intro items hp hfm
    rcases hv : resp.validate_ok <;>
      simp [analyze_chapters, ai_analyze, hv, hp, hfm]

/-- Witness for C1: an AI call that raises makes `smart_chapter_detection`
return the fallback with method `"rule-based"`, and a provider response that
fails validation makes `analyze_chapters` return the rule-based analysis. -/
theorem c1_ai_failure_falls_back_witness :
    smart_chapter_detection [] 200 true true (.error ()) =
      (generate_fallback_chapters [] 200, "rule-based") ∧
    analyze_chapters (fun n => s!"uuid-{n}") true true ⟨false, none⟩ "Hello." 50 =
      rule_based_analyze (fun n => s!"uuid-{n}") "Hello." 50 :=
  ⟨(c1_ai_failure_falls_back [] 200 (.error ()) (fun n => s!"uuid-{n}")
      ⟨false, none⟩ "Hello." 50).1 (Or.inl rfl),
   (c1_ai_failure_falls_back [] 200 (.error ()) (fun n => s!"uuid-{n}")
      ⟨false, none⟩ "Hello." 50).2.1 rfl⟩

/-- C5: `score_viral_potential` returns exactly the clamped sum
`50 + duration bonus (+20 on [30,60], +10 on (60,90], −20 below 20)
+ min(5·#hooks, 15) + 5 if the summary contains "?" + 5 if the title has at
most 5 words + ⌊confidence·20⌋ + 2 per viral-intent keyword occurring in the
lowercased title+summary`, clamped to [0,100].  (`⌊·⌋` agrees with the code's
`int()` because the confidence is non-negative, as the data model requires.) -/
theorem c5_viral_score_formula (c : Chapter) (hc : 0 ≤ c.confidence) :
    score_viral_potential c =
      min (max ((50 : ℤ)
        + (if 30 ≤ c.duration ∧ c.duration ≤ 60 then 20
           else if 60 < c.duration ∧ c.duration ≤ 90 then 10
           else if c.duration < 20 then -20 else 0)
        + min (5 * (c.hooks.length : ℤ)) 15
        + (if (match c.summary with
               | some s => pyContains "?" s
               | none => false) = true then 5 else 0)
        + (if (pySplitWs c.title).length ≤ 5 then 5 else 0)
        + ⌊c.confidence * 20⌋
        + 2 * (viral_intent_keywords.countP (fun k =>
            pyContains k (pyLower (c.title ++ " " ++ (c.summary.getD ""))))) ) 0) 100 := by
  have hpt : pytrunc (c.confidence * 20) = ⌊c.confidence * 20⌋ := by
    unfold pytrunc
    rw [if_neg]
    push_neg
    positivity
  have hq : (match c.summary with
      | some s => decide (s ≠ "") && pyContains "?" s
      | none => false) =
      (match c.summary with
      | some s => pyContains "?" s
      | none => false) := by
    rcases c.summary with _ | s
    · rfl
    · by_cases hs : s = ""
      · subst hs
        decide
      · simp [hs]
  by_cases hhe : c.hooks = []
  · simp only [score_viral_potential, hpt, hq, hhe, ne_eq, not_true_eq_false, if_false,
      List.length_nil, Nat.cast_zero]
    split_ifs <;> omega
  · simp only [score_viral_potential, hpt, hq, ne_eq, hhe, not_false_eq_true, if_true]
    split_ifs <;> omega

/-- Witness for C5: a 45-second chapter with one hook, a question in the
summary, a 2-word title and confidence 0.85 scores
`min(50+20+5+5+5+17, 100) = 100`. -/
theorem c5_viral_score_formula_witness :
    (0 : ℚ) ≤ 0.85 ∧
    score_viral_potential
      { id := "c1", title := "Hi there", start := 0, end_ := 45,
        duration := 45, summary := some "Really?", confidence := 0.85,
        hooks := ["abc"] } = 100 := by
  refine ⟨by norm_num, ?_⟩
  rw [c5_viral_score_formula _ (by norm_num)]
  norm_num
  decide

/-- Every chapter record actually produced by the entry loop of
`parse_chapter_response` has its end clamped to the video duration. -/
theorem conv_chapter_entry_end_le (i : ℕ) (item : RawChapterEntry) (vd : ℚ)
    (c : ChapterDict) (h : conv_chapter_entry i item vd = .ok (some c)) :
    c.end_ ≤ vd := by
  unfold conv_chapter_entry at h
  simp only [Bind.bind, Except.bind] at h
  rcases hs : parse_ts_secs (item.start_time.getD "00:00") with _ | so <;> rw [hs] at h <;>
    dsimp only at h
  · exact absurd h (by simp)
  · rcases he : parse_ts_secs (item.end_time.getD "00:00") with _ | eo <;> rw [he] at h <;>
      dsimp only at h
    · exact absurd h (by simp)
    · split at h
      · exact absurd h (by simp [Pure.pure, Except.pure])
      · simp only [Pure.pure, Except.pure, Except.ok.injEq, Option.some.injEq] at h
        subst h
        exact min_le_right _ _

/-- The entry loop propagates the end-clamp bound to every produced chapter. -/
theorem parse_go_end_le (vd : ℚ) (l : List (ℕ × RawChapterEntry)) :
    ∀ (acc res : List ChapterDict),
      parse_chapter_go vd l acc = .ok res →
      (∀ c ∈ acc, c.end_ ≤ vd) → ∀ c ∈ res, c.end_ ≤ vd := by
  induction l with
  | nil =>
    intro acc res h hacc
    simp only [parse_chapter_go, Except.ok.injEq] at h
    subst h
    exact hacc
  | cons p rest ih =>
    intro acc res h hacc
    rcases p with ⟨i, item⟩
    simp only [parse_chapter_go] at h
    rcases hconv : conv_chapter_entry i item vd with _ | co <;> rw [hconv] at h
    · cases h
    · rcases co with _ | c
      · exact ih acc res h hacc
      · refine ih (acc ++ [c]) res h ?_
        intro x hx
        rcases List.mem_append.mp hx with hx | hx
        · exact hacc x hx
        · rw [List.mem_singleton.mp hx]
          exact conv_chapter_entry_end_le i item vd c hconv

/-- Start/end/duration facts for the `i`-th fallback chapter. -/
theorem fallback_chapter_facts (i : ℕ) (vd : ℚ) (hvd : 0 < vd)
    (hi : i < max 1 (pytrunc (vd / 180)).toNat) :
    0 ≤ ((i:ℚ) * 180) ∧ (i:ℚ) * 180 < min (((i:ℚ) + 1) * 180) vd ∧
    min (((i:ℚ) + 1) * 180) vd ≤ vd ∧
    (min (((i:ℚ) + 1) * 180) vd - (i:ℚ) * 180 = 180 ∨
      (min (((i:ℚ) + 1) * 180) vd = vd ∧ min (((i:ℚ) + 1) * 180) vd - (i:ℚ) * 180 ≤ 180)) := by
  have hq0 : (0:ℚ) ≤ vd / 180 := by positivity
  by_cases hi0 : i = 0
  · subst hi0
    simp only [Nat.cast_zero, zero_mul, zero_add, one_mul, sub_zero, le_refl, true_and]
    rcases le_or_lt 180 vd with h | h
    · rw [min_eq_left h]
      exact ⟨by norm_num, h, Or.inl rfl⟩
    · rw [min_eq_right h.le]
      exact ⟨hvd, le_refl _, Or.inr ⟨rfl, h.le⟩⟩
  · have h1 : 1 ≤ i := Nat.one_le_iff_ne_zero.mpr hi0
    have hN : pytrunc (vd / 180) = ⌊vd / 180⌋ := by
      unfold pytrunc
      rw [if_neg (not_lt.mpr hq0)]
    rw [hN] at hi
    have h4 : ((i:ℤ) + 1) ≤ ⌊vd / 180⌋ := by omega
    have h5 : ((i:ℚ) + 1) ≤ vd / 180 := by
      calc ((i:ℚ) + 1) = (((i:ℤ) + 1 : ℤ) : ℚ) := by push_cast; ring
      _ ≤ ((⌊vd / 180⌋ : ℤ) : ℚ) := by exact_mod_cast h4
      _ ≤ vd / 180 := Int.floor_le _
    have h6 : ((i:ℚ) + 1) * 180 ≤ vd := by
      rw [le_div_iff₀ (by norm_num : (0:ℚ) < 180)] at h5
      linarith
    rw [min_eq_left h6]
    exact ⟨by positivity, by nlinarith, h6, Or.inl (by ring)⟩

/-- Counterexample to C3 as stated: an AI entry claiming the range
20:00–30:00 of a 100-second video passes the only validation the code applies
(pre-clamp duration 600 ≥ 30), its end is clamped to 100, and the produced
chapter has `start = 1200 > 100 = end` (duration −1100) — violating
`0 ≤ start < end` and the `[min,max]` duration bound. -/
theorem c3_counterexample :
    (parse_chapter_response [{ start_time := some "20:00", end_time := some "30:00" }] 100).map
      (fun c => (c.start, c.end_)) = [((1200 : ℚ), (100 : ℚ))] ∧ ¬ ((1200 : ℚ) < 100) := by
  constructor
  · have h1 : parse_ts_secs "20:00" = .ok (some 1200) := by decide
    have h2 : parse_ts_secs "30:00" = .ok (some 1800) := by decide
    simp [parse_chapter_response, parse_chapter_go, conv_chapter_entry, h1, h2,
      List.enum, List.enumFrom, bind, Except.bind, pure, Except.pure]
    norm_num
  · norm_num

/-- C3 (amended): for a positive video duration, every chapter produced by the
fixed-width fallback `generate_fallback_chapters` satisfies the full invariant
— `0 ≤ start < end ≤ video duration`, `duration = end − start`, and the
duration is exactly 180 s (which lies within the configured [120, 300] bounds)
except for a trailing chapter clamped by the video duration.  Chapters
produced by `parse_chapter_response`, however, are only guaranteed
`end ≤ video duration` (plus the pre-clamp duration ≥ 30 filter); `start < end`
and the `[min,max]` bounds can fail there (see the counterexample). -/
theorem c3_chapter_bounds (segments : List Segment) (entries : List RawChapterEntry)
    (video_duration : ℚ) (hvd : 0 < video_duration) :
    (∀ c ∈ generate_fallback_chapters segments video_duration,
      0 ≤ c.start ∧ c.start < c.end_ ∧ c.end_ ≤ video_duration ∧
      c.duration = c.end_ - c.start ∧
      (c.duration = 180 ∨ (c.end_ = video_duration ∧ c.duration ≤ 180))) ∧
    (∀ c ∈ parse_chapter_response entries video_duration, c.end_ ≤ video_duration) := by
  constructor
  · intro c hc
    unfold generate_fallback_chapters at hc
    obtain ⟨i, hi, rfl⟩ := List.mem_map.mp hc
    rw [List.mem_range] at hi
    obtain ⟨f1, f2, f3, f4⟩ := fallback_chapter_facts i video_duration hvd hi
    exact ⟨f1, f2, f3, rfl, f4⟩
  · intro c hc
    unfold parse_chapter_response at hc
    rcases hgo : parse_chapter_go video_duration entries.enum [] with _ | res <;>
      rw [hgo] at hc
    · simp at hc
    · exact parse_go_end_le video_duration entries.enum [] res hgo (by simp) c hc

/-- Witness for the amended C3 at video duration 200: every end time in the
parse of an entry reaching past the video end stays clamped below 200. -/
theorem c3_chapter_bounds_witness :
    (0 : ℚ) < 200 ∧
    ((parse_chapter_response [{ start_time := some "00:00", end_time := some "05:00" }] 200).map
      (fun c => c.end_)).all (fun q => decide (q ≤ 200)) = true := by
  refine ⟨by norm_num, ?_⟩
  have hall := (c3_chapter_bounds []
    [{ start_time := some "00:00", end_time := some "05:00" }] 200 (by norm_num)).2
  rw [List.all_eq_true]
  intro q hq
  obtain ⟨c, hc, rfl⟩ := List.mem_map.mp hq
  exact decide_eq_true (hall c hc)

/-- When no entry of the batch raises, the entry loop of
`parse_chapter_response` processes every entry individually: the result is the
per-entry conversion filter-mapped over the enumerated batch. -/
theorem parse_go_no_error (vd : ℚ) (l : List (ℕ × RawChapterEntry)) :
    ∀ acc : List ChapterDict,
      (∀ p ∈ l, conv_chapter_entry p.1 p.2 vd ≠ .error ()) →
      parse_chapter_go vd l acc =
        .ok (acc ++ l.filterMap (fun p => ((conv_chapter_entry p.1 p.2 vd).toOption).join)) := by
  induction l with
  | nil =>
    intro acc _
    simp [parse_chapter_go]
  | cons p rest ih =>
    intro acc hne
    rcases p with ⟨i, item⟩
    rcases hconv : conv_chapter_entry i item vd with u | co
    · cases u
      exact absurd hconv (hne (i, item) (List.mem_cons_self _ _))
    · rcases co with _ | c
      · have hf : ((conv_chapter_entry i item vd).toOption).join = (none : Option ChapterDict) := by
          rw [hconv]
          rfl
        simp only [parse_chapter_go, hconv, List.filterMap_cons, hf]
        exact ih acc (fun q hq => hne q (List.mem_cons_of_mem _ hq))
      · have hf : ((conv_chapter_entry i item vd).toOption).join = some c := by
          rw [hconv]
          rfl
        simp only [parse_chapter_go, hconv, List.filterMap_cons, hf]
        rw [ih (acc ++ [c]) (fun q hq => hne q (List.mem_cons_of_mem _ hq))]
        simp only [List.append_assoc, List.singleton_append]
        rfl

/-- If any entry of the batch raises (malformed timestamp), the whole entry
loop raises. -/
theorem parse_go_error (vd : ℚ) (l : List (ℕ × RawChapterEntry)) :
    ∀ acc : List ChapterDict,
      (∃ p ∈ l, conv_chapter_entry p.1 p.2 vd = .error ()) →
      parse_chapter_go vd l acc = .error () := by
  induction l with
  | nil =>
    intro acc hex
    obtain ⟨p, hp, _⟩ := hex
    exact absurd hp (List.not_mem_nil p)
  | cons q rest ih =>
    intro acc hex
    rcases q with ⟨i, item⟩
    rcases hconv : conv_chapter_entry i item vd with u | co
    · simp [parse_chapter_go, hconv]
    · obtain ⟨p, hp, herr⟩ := hex
      rcases List.mem_cons.mp hp with rfl | hp'
      · rw [hconv] at herr
        cases herr
      · rcases co with _ | c <;> simp only [parse_chapter_go, hconv] <;>
          exact ih _ ⟨p, hp', herr⟩

/-- C8 (amended): as long as every entry's timestamp fields parse, entries are
validated individually — a pre-clamp duration under 30 s drops only that entry
(the result is the per-entry conversion filter-mapped over the batch) and each
produced chapter's end is individually clamped to the video duration; but an
entry with an unparsable `MM:SS`/`HH:MM:SS` timestamp makes the single
`try/except` around the loop discard the ENTIRE batch, returning `[]`. -/
theorem c8_entry_validation (entries : List RawChapterEntry) (vd : ℚ) :
    ((∀ p ∈ entries.enum, conv_chapter_entry p.1 p.2 vd ≠ .error ()) →
      parse_chapter_response entries vd =
        entries.enum.filterMap (fun p => ((conv_chapter_entry p.1 p.2 vd).toOption).join)) ∧
    (∀ i item c, conv_chapter_entry i item vd = .ok (some c) → c.end_ ≤ vd) ∧
    ((∃ p ∈ entries.enum, conv_chapter_entry p.1 p.2 vd = .error ()) →
      parse_chapter_response entries vd = []) := by
  refine ⟨?_, fun i item c => conv_chapter_entry_end_le i item vd c, ?_⟩
  · intro hne
    unfold parse_chapter_response
    rw [parse_go_no_error vd entries.enum [] hne]
    simp
  · intro hex
    unfold parse_chapter_response
    rw [parse_go_error vd entries.enum [] hex]

/-- Counterexample to C8 as stated: a batch of three entries whose middle
entry has the unparsable timestamp "aa:bb" parses to `[]` — the two
well-formed entries are discarded with it — although the same two entries on
their own produce two chapters. -/
theorem c8_counterexample :
    parse_chapter_response
      [{ start_time := some "00:00", end_time := some "01:00" },
       { start_time := some "aa:bb", end_time := some "02:00" },
       { start_time := some "01:00", end_time := some "02:00" }] 600 = [] ∧
    (parse_chapter_response
      [{ start_time := some "00:00", end_time := some "01:00" },
       { start_time := some "01:00", end_time := some "02:00" }] 600).length = 2 := by
  constructor
  · have hb : parse_ts_secs "aa:bb" = .error () := by decide
    have h0 : parse_ts_secs "00:00" = .ok (some 0) := by decide
    have h1 : parse_ts_secs "01:00" = .ok (some 60) := by decide
    simp [parse_chapter_response, parse_chapter_go, conv_chapter_entry, hb, h0, h1,
      List.enum, List.enumFrom, bind, Except.bind, pure, Except.pure]
  · have h0 : parse_ts_secs "00:00" = .ok (some 0) := by decide
    have h1 : parse_ts_secs "01:00" = .ok (some 60) := by decide
    have h2 : parse_ts_secs "02:00" = .ok (some 120) := by decide
    simp [parse_chapter_response, parse_chapter_go, conv_chapter_entry, h0, h1, h2,
      List.enum, List.enumFrom, bind, Except.bind, pure, Except.pure]

/-- Witness for the amended C8: the no-exception case on the empty batch, and
the batch-abort case on a batch containing the malformed entry. -/
theorem c8_entry_validation_witness :
    parse_chapter_response ([] : List RawChapterEntry) 600 =
      ([] : List RawChapterEntry).enum.filterMap
        (fun p => ((conv_chapter_entry p.1 p.2 600).toOption).join) ∧
    parse_chapter_response
      [{ start_time := some "00:00", end_time := some "01:00" },
       { start_time := some "aa:bb", end_time := some "02:00" },
       { start_time := some "01:00", end_time := some "02:00" }] 600 = [] := by
  constructor
  · exact (c8_entry_validation [] 600).1 (by simp)
  · exact (c8_entry_validation _ 600).2.2 ⟨(1, { start_time := some "aa:bb", end_time := some "02:00" }),
      by decide, by decide⟩

/-- The greedy selection returns a sublist of the clip dicts of the sorted
segments (order preserved, no invention). -/
theorem select_clip_cands_sublist (t : ℕ) (segs : List ScoredSeg) :
    ∀ (used : List ℤ) (room : ℕ),
      List.Sublist (select_clip_cands t segs used room) (segs.map (mk_clip_cand t)) := by
  induction segs with
  | nil =>
    intro used room
    simp [select_clip_cands]
  | cons s rest ih =>
    intro used room
    by_cases h0 : room = 0
    · simp [select_clip_cands, h0]
    · by_cases hk : pytrunc (max 0 (s.start - 2) / 30) ∈ used
      · simp only [select_clip_cands, h0, hk, if_neg, if_pos, if_false, ite_false]
        exact (ih used room).trans (List.sublist_cons_self _ _)
      · simp only [select_clip_cands]
        rw [if_neg h0, if_neg hk, List.map_cons]
        exact List.Sublist.cons₂ _ (ih _ _)

/-- The greedy selection never reuses a 30-second bucket: selected clips have
pairwise distinct bucket keys and avoid the already-used ones. -/
theorem select_clip_cands_keys (t : ℕ) (segs : List ScoredSeg) :
    ∀ (used : List ℤ) (room : ℕ),
      (∀ c ∈ select_clip_cands t segs used room, clip_time_key c ∉ used) ∧
      (select_clip_cands t segs used room).Pairwise
        (fun a b => clip_time_key a ≠ clip_time_key b) := by
  induction segs with
  | nil =>
    intro used room
    simp [select_clip_cands]
  | cons s rest ih =>
    intro used room
    by_cases h0 : room = 0
    · simp [select_clip_cands, h0]
    · by_cases hk : pytrunc (max 0 (s.start - 2) / 30) ∈ used
      · simp only [select_clip_cands]
        rw [if_neg h0, if_pos hk]
        exact ih used room
      · simp only [select_clip_cands]
        rw [if_neg h0, if_neg hk]
        obtain ⟨ih1, ih2⟩ := ih (pytrunc (max 0 (s.start - 2) / 30) :: used) (room - 1)
        have hkey : clip_time_key (mk_clip_cand t s) = pytrunc (max 0 (s.start - 2) / 30) := rfl
        constructor
        · intro c hc
          rcases List.mem_cons.mp hc with rfl | hc'
          · rw [hkey]
            exact hk
          · intro hcu
            exact ih1 c hc' (List.mem_cons_of_mem _ hcu)
        · refine List.Pairwise.cons ?_ ih2
          intro b hb
          rw [hkey]
          intro heq
          exact ih1 b hb (heq ▸ List.mem_cons_self _ _)

/-- The greedy selection never returns more clips than it has room for. -/
theorem select_clip_cands_length (t : ℕ) (segs : List ScoredSeg) :
    ∀ (used : List ℤ) (room : ℕ),
      (select_clip_cands t segs used room).length ≤ room := by
  induction segs with
  | nil =>
    intro used room
    simp [select_clip_cands]
  | cons s rest ih =>
    intro used room
    by_cases h0 : room = 0
    · simp [select_clip_cands, h0]
    · by_cases hk : pytrunc (max 0 (s.start - 2) / 30) ∈ used
      · simp only [select_clip_cands]
        rw [if_neg h0, if_pos hk]
        exact ih used room
      · simp only [select_clip_cands]
        rw [if_neg h0, if_neg hk, List.length_cons]
        have := ih (pytrunc (max 0 (s.start - 2) / 30) :: used) (room - 1)
        omega

/-- C7: among the candidates returned by one call of
`analyze_transcript_for_clips`, no two share the same 30-second bucket key
`int(start/30)`; candidates come in descending score order; each is windowed
to start at `max(0, segment start − 2)` with the fixed target duration; and at
most 9 candidates are returned. -/
theorem c7_clip_candidates (segments : List Segment) (target_duration : ℕ) :
    (analyze_transcript_for_clips segments target_duration).Pairwise
      (fun a b => clip_time_key a ≠ clip_time_key b) ∧
    (analyze_transcript_for_clips segments target_duration).Pairwise
      (fun a b => b.score ≤ a.score) ∧
    (∀ c ∈ analyze_transcript_for_clips segments target_duration,
      c.duration = target_duration ∧ ∃ s ∈ segments, c.start = max 0 (s.start - 2)) ∧
    (analyze_transcript_for_clips segments target_duration).length ≤ 9 := by
  by_cases hseg : segments = []
  · simp [analyze_transcript_for_clips, hseg]
  · have hdef : analyze_transcript_for_clips segments target_duration =
        select_clip_cands target_duration
          ((segments.enum.map (fun p => score_transcript_segment p.1 p.2)).mergeSort
            (fun a b => decide (b.score ≤ a.score))) [] 9 := by
      simp [analyze_transcript_for_clips, hseg]
    set sorted := (segments.enum.map (fun p => score_transcript_segment p.1 p.2)).mergeSort
      (fun a b => decide (b.score ≤ a.score)) with hsorted_def
    have hsub := select_clip_cands_sublist target_duration sorted [] 9
    refine ⟨?_, ?_, ?_, ?_⟩
    · rw [hdef]
      exact (select_clip_cands_keys target_duration sorted [] 9).2
    · rw [hdef]
      have hsorted : sorted.Pairwise (fun a b => (decide (b.score ≤ a.score)) = true) := by
        apply List.sorted_mergeSort
        · intro a b c hab hbc
          simp only [decide_eq_true_eq] at *
          exact le_trans hbc hab
        · intro a b
          simp only [Bool.or_eq_true, decide_eq_true_eq]
          exact le_total b.score a.score
      have hmap : (sorted.map (mk_clip_cand target_duration)).Pairwise
          (fun (a b : ClipDict) => b.score ≤ a.score) := by
        refine List.Pairwise.map _ ?_ hsorted
        intro a b hab
        simpa using hab
      exact List.Pairwise.sublist hsub hmap
    · rw [hdef]
      intro c hc
      have hc' : c ∈ sorted.map (mk_clip_cand target_duration) := hsub.subset hc
      obtain ⟨s, hs, rfl⟩ := List.mem_map.mp hc'
      have hs' : s ∈ segments.enum.map (fun p => score_transcript_segment p.1 p.2) :=
        ((List.mergeSort_perm _ _).mem_iff).mp hs
      obtain ⟨p, hp, rfl⟩ := List.mem_map.mp hs'
      have hseg_mem : p.2 ∈ segments := by
        rcases p with ⟨i, seg⟩
        obtain ⟨hlt, hgt⟩ := List.mem_enum hp
        rw [hgt]
        exact List.getElem_mem _
      exact ⟨rfl, p.2, hseg_mem, rfl⟩
    · rw [hdef]
      exact select_clip_cands_length target_duration sorted [] 9
